import Mathlib

/-!
Verification of the agent SDK core (AG-UI protocol bridges, MCP connection
manager, and agent retry loop) against its natural-language specification.

The definitions below are shallow embeddings of the Python source in
`src/agent-sdk/src/yahoo_dsp_agent_sdk/` (`agui_bridge.py`, `agent.py`,
`agent_langchain.py`, `mcps.py`).  Conventions used throughout:

* Python `uuid.uuid4()` calls are modelled with a fresh-name counter carried
  in the bridge state (`uuidStr n`); distinctness of generated identifiers is
  what matters, not their shape.
* Identifier fields of events hold `Option String`, mirroring the bridge
  attributes `current_message_id` / `current_tool_call_id` that are `None`
  until assigned and are copied verbatim into each event.
* An async generator is modelled as the list of events it yields; an
  exception raised while producing or converting a raw runtime event is a
  `raise` item in the raw stream, which aborts the remaining items exactly
  like exception propagation out of `async for`.
* `time.sleep` and the MCP reconnection side effects are recorded in traces
  (lists of operations) so that the retry claims can count them.
* Python floats (`retry_delay`) are modelled as rationals; the backoff
  arithmetic `retry_delay * (2 ** attempt)` is translated literally.
-/

/-- The AG-UI wire events (`ag_ui.core.events`) used by the bridges, with the
fields the bridge code actually sets. -/
inductive WireEvent
  | runStarted (threadId runId : String)
  | textMessageStart (messageId : Option String) (role : String)
  | textMessageContent (messageId : Option String) (delta : String)
  | textMessageEnd (messageId : Option String)
  | toolCallStart (toolCallId : Option String) (toolCallName : String)
      (parentMessageId : Option String)
  | toolCallArgs (toolCallId : Option String) (delta : String)
  | toolCallResult (toolCallId : Option String) (messageId : Option String)
      (content : String) (role : String)
  | toolCallEnd (toolCallId : Option String)
  | runFinished (threadId runId : String) (result : Option String)
  | runError (message : String)
deriving DecidableEq, Repr

/-- `RUN_FINISHED` and `RUN_ERROR` are the terminal wire events. -/
def isTerminal : WireEvent → Bool
  | .runFinished _ _ _ => true
  | .runError _ => true
  | _ => false

def isTextMessageEnd : WireEvent → Bool
  | .textMessageEnd _ => true
  | _ => false

def isToolCallStart : WireEvent → Bool
  | .toolCallStart _ _ _ => true
  | _ => false

def isToolCallResult : WireEvent → Bool
  | .toolCallResult _ _ _ _ => true
  | _ => false

def isToolCallEnd : WireEvent → Bool
  | .toolCallEnd _ => true
  | _ => false

/-- Model of `str(uuid.uuid4())`: the `n`-th fresh identifier of a run. -/
def uuidStr (n : Nat) : String := "uuid-" ++ toString n

/-- State of `StrandsToAGUIBridge` (`agui_bridge.py`): the constructor sets
`current_message_id = None`, `current_tool_call_id = None`,
`tool_args_buffer = ""`, `tool_name = None`.  `fresh` is the uuid counter. -/
structure StrandsState where
  currentMessageId : Option String
  currentToolCallId : Option String
  toolArgsBuffer : String
  toolName : Option String
  fresh : Nat
deriving DecidableEq, Repr

def strandsInit : StrandsState :=
  { currentMessageId := none, currentToolCallId := none, toolArgsBuffer := ""
    toolName := none, fresh := 0 }

/-- `StrandsToAGUIBridge.start_message`. -/
def strands_start_message (s : StrandsState) (role : String) :
    WireEvent × StrandsState :=
  let mid := uuidStr s.fresh
  (.textMessageStart (some mid) role,
   { s with currentMessageId := some mid, fresh := s.fresh + 1 })

/-- `StrandsToAGUIBridge.end_tool_call`: emits `ToolCallResult` then
`ToolCallEnd` from the current state, then clears the tool-call state.  The
default `result` argument is `"Tool executed successfully"`. -/
def strands_end_tool_call (s : StrandsState) (result : String) :
    List WireEvent × StrandsState :=
  ([.toolCallResult s.currentToolCallId s.currentMessageId result "tool",
    .toolCallEnd s.currentToolCallId],
   { s with currentToolCallId := none, toolArgsBuffer := "", toolName := none })

/-- The shapes of raw Strands runtime events that
`StrandsToAGUIBridge.convert_strands_event` distinguishes.  `dataDelta` is a
dict with both `"data"` and `"delta"` keys (the text carried is
`str(event["data"])`); the `blockStart`/`blockDelta`/`blockStop` variants are
dicts with an `"event"` key and the corresponding nested key; `other` is any
other dict (ignored). -/
inductive StrandsEvent
  | dataDelta (text : String)
  | blockStartToolUse (name : String)
  | blockStartOther
  | blockDeltaToolUse (input : String)
  | blockDeltaOther
  | blockStop
  | other
deriving DecidableEq, Repr

/-- `StrandsToAGUIBridge.convert_strands_event`.  Python truthiness of
`self.current_tool_call_id` (a uuid string or `None`) is `Option.isSome`;
truthiness of `tool_input` (converted with `str`) is being nonempty. -/
def convert_strands_event (s : StrandsState) :
    StrandsEvent → List WireEvent × StrandsState
  | .dataDelta t => ([.textMessageContent s.currentMessageId t], s)
  | .blockStartToolUse name =>
      let tid := uuidStr s.fresh
      ([.toolCallStart (some tid) name s.currentMessageId],
       { s with currentToolCallId := some tid, toolName := some name
                toolArgsBuffer := "", fresh := s.fresh + 1 })
  | .blockStartOther => ([], s)
  | .blockDeltaToolUse input =>
      if s.currentToolCallId.isSome && input != "" then
        ([.toolCallArgs s.currentToolCallId input],
         { s with toolArgsBuffer := s.toolArgsBuffer ++ input })
      else ([], s)
  | .blockDeltaOther => ([], s)
  | .blockStop =>
      if s.currentToolCallId.isSome then
        strands_end_tool_call s "Tool executed successfully"
      else ([], s)
  | .other => ([], s)

/-- One step of the raw event stream consumed by
`Agent.stream_with_agui_bridge`: either a Strands event is produced, or an
exception is raised while producing or converting it. -/
inductive StrandsRawItem
  | ev (e : StrandsEvent)
  | raised (msg : String)
deriving DecidableEq, Repr

/-- Folding `convert_strands_event` over the raw stream, as the
`async for strands_event in self.agent.stream_async(query)` loop does.  A
`raised` item aborts the rest of the stream and reports the error. -/
def processStrandsItems (s : StrandsState) :
    List StrandsRawItem → List WireEvent × StrandsState × Option String
  | [] => ([], s, none)
  | .raised m :: _ => ([], s, some m)
  | .ev e :: rest =>
      ((convert_strands_event s e).1 ++
         (processStrandsItems (convert_strands_event s e).2 rest).1,
       (processStrandsItems (convert_strands_event s e).2 rest).2)

/-- The message of the first exception in the raw stream, if any. -/
def firstRaise : List StrandsRawItem → Option String
  | [] => none
  | .raised m :: _ => some m
  | .ev _ :: rest => firstRaise rest

/-- `Agent.stream_with_agui_bridge` (`agent.py`): yields `RunStarted`, then
`TextMessageStart`, then the converted raw events; on normal completion it
fetches the structured result (`get_structured_output_async` swallows its own
errors and never raises, so the result is a plain `Option String` here), then
yields `TextMessageEnd` and `RunFinished result`; an exception anywhere is
caught by the single `except` and answered with one `RunError`. -/
def stream_with_agui_bridge (threadId userId : String)
    (items : List StrandsRawItem) (structured : Option String) :
    List WireEvent :=
  let runId := threadId ++ "_" ++ userId
  let res := processStrandsItems (strands_start_message strandsInit "assistant").2 items
  .runStarted threadId runId ::
    (strands_start_message strandsInit "assistant").1 :: res.1 ++
    (match res.2.2 with
     | some m => [.runError m]
     | none => [.textMessageEnd res.2.1.currentMessageId,
                .runFinished threadId runId structured])

/-- State of `LangChainToAGUIBridge` (`agui_bridge.py`): only
`current_message_id` and `current_tool_call_id`; `fresh` is the uuid
counter. -/
structure LCState where
  currentMessageId : Option String
  currentToolCallId : Option String
  fresh : Nat
deriving DecidableEq, Repr

def lcInit : LCState :=
  { currentMessageId := none, currentToolCallId := none, fresh := 0 }

/-- `LangChainToAGUIBridge.start_message`. -/
def lc_start_message (s : LCState) (role : String) : WireEvent × LCState :=
  let mid := uuidStr s.fresh
  (.textMessageStart (some mid) role,
   { s with currentMessageId := some mid, fresh := s.fresh + 1 })

/-- `LangChainToAGUIBridge.end_tool_call` (default result
`"Tool executed successfully"`). -/
def lc_end_tool_call (s : LCState) (result : String) :
    List WireEvent × LCState :=
  ([.toolCallResult s.currentToolCallId s.currentMessageId result "tool",
    .toolCallEnd s.currentToolCallId],
   { s with currentToolCallId := none })

/-- One block of a list-shaped `chunk.content`: a dict block carries its
`"type"` and `"text"` entries (`block.get("text", "")` defaults to the empty
string); anything that is not a dict is skipped. -/
inductive LCBlockItem
  | dictBlock (btype : String) (text : String)
  | nonDict
deriving DecidableEq, Repr

/-- The `content.content` attribute of an `on_chat_model_stream` chunk:
a string, a list of blocks, or absent/falsy. -/
inductive LCChunkContent
  | strContent (s : String)
  | listContent (bs : List LCBlockItem)
  | noContent
deriving DecidableEq, Repr

/-- The raw `astream_events` events `LangChainToAGUIBridge.process_stream_event`
distinguishes by their `"event"` key.  For `onToolStart`, `eventId` models the
CPython object id used to build `tool_id = "tool_" + id(event)`, and `input`
is `json.dumps(tool_input)` when `tool_input` is truthy, `none` otherwise.
For `onToolEnd`, `output` is `str(event["data"].get("output", ""))`. -/
inductive LCEvent
  | chatModelStream (c : LCChunkContent)
  | onToolStart (name : String) (eventId : Nat) (input : Option String)
  | onToolEnd (output : String)
  | otherEvent
deriving DecidableEq, Repr

/-- The text events emitted for an `on_chat_model_stream` chunk: a truthy
string content yields one `TextMessageContent`; a truthy list yields one per
dict block of type `"text"` with truthy text. -/
def lcTextEvents (s : LCState) : LCChunkContent → List WireEvent
  | .noContent => []
  | .strContent t =>
      if t != "" then [.textMessageContent s.currentMessageId t] else []
  | .listContent bs =>
      if bs.isEmpty then []
      else bs.foldr (fun b acc =>
        (match b with
         | .dictBlock btype text =>
             if btype == "text" && text != "" then
               [WireEvent.textMessageContent s.currentMessageId text]
             else []
         | .nonDict => []) ++ acc) []

/-- `LangChainToAGUIBridge.process_stream_event`.  On `on_tool_start`, if a
tool call is already open it is force-closed first (`end_tool_call`), then the
new one is opened with id `"tool_" ++ eventId`; `start_tool_call` keeps a
provided nonempty id rather than drawing a uuid. -/
def process_stream_event (s : LCState) : LCEvent → List WireEvent × LCState
  | .chatModelStream c => (lcTextEvents s c, s)
  | .onToolStart name eventId input =>
      let toolId := "tool_" ++ toString eventId
      let closePair :=
        if s.currentToolCallId.isSome then
          lc_end_tool_call s "Tool executed successfully"
        else ([], s)
      let s2 := { closePair.2 with currentToolCallId := some toolId }
      (closePair.1 ++
        WireEvent.toolCallStart (some toolId) name s2.currentMessageId ::
        (match input with
         | some args => [WireEvent.toolCallArgs (some toolId) args]
         | none => []), s2)
  | .onToolEnd output =>
      if s.currentToolCallId.isSome then lc_end_tool_call s output
      else ([], s)
  | .otherEvent => ([], s)

/-- One step of the raw `astream_events` stream consumed by
`AgentLangchain.stream_with_agui_bridge`. -/
inductive LCRawItem
  | ev (e : LCEvent)
  | raised (msg : String)
deriving DecidableEq, Repr

/-- Folding `process_stream_event` over the raw stream; a `raised` item aborts
the rest and reports the error. -/
def lcProcessItems (s : LCState) :
    List LCRawItem → List WireEvent × LCState × Option String
  | [] => ([], s, none)
  | .raised m :: _ => ([], s, some m)
  | .ev e :: rest =>
      ((process_stream_event s e).1 ++
         (lcProcessItems (process_stream_event s e).2 rest).1,
       (lcProcessItems (process_stream_event s e).2 rest).2)

def lcFirstRaise : List LCRawItem → Option String
  | [] => none
  | .raised m :: _ => some m
  | .ev _ :: rest => lcFirstRaise rest

/-- `AgentLangchain.stream_with_agui_bridge` (`agent_langchain.py`): after the
event loop, an open tool call is force-closed, then `TextMessageEnd` and
`RunFinished` (with no result) are yielded; an exception anywhere is answered
with one `RunError`. -/
def lc_stream_with_agui_bridge (threadId userId : String)
    (items : List LCRawItem) : List WireEvent :=
  let runId := threadId ++ "_" ++ userId
  let res := lcProcessItems (lc_start_message lcInit "assistant").2 items
  .runStarted threadId runId ::
    (lc_start_message lcInit "assistant").1 :: res.1 ++
    (match res.2.2 with
     | some m => [.runError m]
     | none =>
        (if res.2.1.currentToolCallId.isSome then
          (lc_end_tool_call res.2.1 "Tool executed successfully").1
         else []) ++
        [.textMessageEnd res.2.1.currentMessageId,
         .runFinished threadId runId none])

/-- An MCP tool as `filter_tools` (`mcps.py`) inspects it: `fastmcpTags` is
`some ts` when `tool.mcp_tool` has a truthy `meta` dict whose `"_fastmcp"`
entry is a truthy dict, with `ts = meta["_fastmcp"].get("tags", [])`;
`none` collapses every case in which one of those lookups is absent or
falsy (each of which makes the Python conjunction short-circuit to skip the
tool). -/
structure MCPTool where
  name : String
  fastmcpTags : Option (List String)
deriving DecidableEq, Repr

/-- `filter_tools` (`mcps.py`): keeps the tools whose `_fastmcp` tag list
meets the given tag list (`any(tag in tags_list for tag in tags)`). -/
def filter_tools (tools : List MCPTool) (tags : List String) : List MCPTool :=
  tools.filter (fun tool =>
    match tool.fastmcpTags with
    | some ts => tags.any (fun tag => ts.contains tag)
    | none => false)

/-- `MCPManager.get_filtered_tools` restricted to its filtering logic: the
connection-management part (`get_tools`) is elided and the fetched tool list
is passed in.  `toolTags` is the manager field `self.tool_tags`; `tags` is the
optional explicit argument.  Mirrors
`filter_tags = tags if tags is not None else self.tool_tags` followed by
`if filter_tags: return filter_tools(tools, filter_tags)` and
`return tools` (a Python list is truthy exactly when nonempty). -/
def get_filtered_tools (toolTags : List String) (tools : List MCPTool)
    (tags : Option (List String)) : List MCPTool :=
  let filterTags := match tags with
    | some t => t
    | none => toolTags
  if filterTags.isEmpty then tools else filter_tools tools filterTags

/-- `MCP_CONNECTION_ERROR_INDICATORS` (`mcps.py`). -/
def MCP_CONNECTION_ERROR_INDICATORS : List String :=
  ["connection closed",
   "connection refused",
   "peer closed connection",
   "incomplete chunked read",
   "client session is not running",
   "unable to connect",
   "all connection attempts failed",
   "connecterror",
   "client initialization failed",
   "mcp error",
   "mcpconnectionerror",
   "mcperror",
   "remote protocol error",
   "connection to the mcp server was closed"]

/-- Whether `needle` is a leading run of `hay` (character lists). -/
def charsStartsWith : List Char → List Char → Bool
  | [], _ => true
  | _ :: _, [] => false
  | a :: as, b :: bs => a == b && charsStartsWith as bs

/-- Whether `needle` occurs contiguously inside `hay`; models the Python
substring test `needle in hay`. -/
def charsContains (needle : List Char) : List Char → Bool
  | [] => needle.isEmpty
  | b :: rest => charsStartsWith needle (b :: rest) || charsContains needle rest

def strContains (needle hay : String) : Bool :=
  charsContains needle.toList hay.toList

/-- Python `str.lower()` on the ASCII error messages involved. -/
def strToLower (s : String) : String := ⟨s.toList.map Char.toLower⟩

/-- The connection-error classification test of `call_mcp_tool`:
`any(indicator in str(result["content"]).lower() for indicator in
MCP_CONNECTION_ERROR_INDICATORS)`. -/
def containsConnIndicator (content : String) : Bool :=
  MCP_CONNECTION_ERROR_INDICATORS.any (fun ind => strContains ind (strToLower content))

/-- The value `mcp_client.call_tool_sync` produces for one call, as
`call_mcp_tool` inspects it: a dict (with its `"status"` entry, its
`"content"` entry stringified, and `result["structuredContent"]["result"]`
when both nested keys exist), a non-dict value, or an exception raised by the
transport. -/
inductive RawToolResult
  | dict (status : Option String) (content : Option String)
      (structuredResult : Option String)
  | nonDict
  | raisedExc (msg : String)
deriving DecidableEq, Repr

/-- Outcome of one `call_mcp_tool` call: the returned data, a raised
`MCPConnectionError`, or a raised `AgentExecutionError`
(`exceptions.py`). -/
inductive ToolCallRes
  | okData (data : String)
  | connFailure (msg : String)
  | execFailure (msg : String)
deriving DecidableEq, Repr

/-- `call_mcp_tool` (`mcps.py`): an error-status dict whose content matches a
connection indicator raises `MCPConnectionError`; a success-status dict with
`structuredContent.result` returns it; every other shape raises
`AgentExecutionError "MCP tool returned unexpected structure"`; an exception
from the transport is wrapped as `AgentExecutionError` (only a
`MCPConnectionError` raised inside the `try` is re-raised unchanged). -/
def call_mcp_tool : RawToolResult → ToolCallRes
  | .raisedExc m => .execFailure ("Error calling MCP tool: " ++ m)
  | .nonDict => .execFailure "MCP tool returned unexpected structure"
  | .dict status content structuredResult =>
      if status == some "error" &&
         (match content with
          | some c => containsConnIndicator c
          | none => false) then
        .connFailure ("MCP connection error: " ++ content.getD "")
      else if status == some "success" && structuredResult.isSome then
        .okData (structuredResult.getD "")
      else .execFailure "MCP tool returned unexpected structure"

/-- `MCPManager.call_tool` (`mcps.py`), with the client already connected:
the first call result and, if a retry happens, the second call result are the
two `RawToolResult` arguments.  The trace is the pair
(number of `reconnect_all` calls, number of `call_mcp_tool` calls).
Only `MCPConnectionError` triggers the single reconnect-and-retry; any other
outcome (success or `AgentExecutionError`) propagates immediately, and the
retried call's outcome propagates whatever it is. -/
def manager_call_tool (first second : RawToolResult) :
    ToolCallRes × Nat × Nat :=
  match call_mcp_tool first with
  | .connFailure _ => (call_mcp_tool second, 1, 2)
  | r => (r, 0, 1)

/-- The outcome of one underlying transport connection attempt as the
`setup_*_mcp_client` helpers observe it: success, an
`MCPClientInitializationError` (wrapped as `MCPConnectionError`), or any
other exception (wrapped as `AgentExecutionError`). -/
inductive SetupOutcome
  | ok
  | initFail (msg : String)
  | otherFail (msg : String)
deriving DecidableEq, Repr

/-- The exception classes connection creation can raise. -/
inductive CreateErr
  | connErr (msg : String)
  | execErr (msg : String)
deriving DecidableEq, Repr

/-- `setup_local_mcp_client` (`mcps.py`), given the transport outcome. -/
def setup_local_mcp_client (net : SetupOutcome) : Except CreateErr Unit :=
  match net with
  | .ok => .ok ()
  | .initFail m =>
      .error (.connErr ("Error initializing stdio MCP client: " ++ m))
  | .otherFail m =>
      .error (.execErr ("Error initializing stdio MCP client: " ++ m))

/-- `setup_stremeable_mcp_client` (`mcps.py`), given the transport outcome. -/
def setup_stremeable_mcp_client (net : SetupOutcome) : Except CreateErr Unit :=
  match net with
  | .ok => .ok ()
  | .initFail m =>
      .error (.connErr ("Error initializing streamable HTTP MCP client: " ++ m))
  | .otherFail m =>
      .error (.execErr ("Error initializing streamable HTTP MCP client: " ++ m))

/-- The `MCPManager` configuration fields used by connection creation and
retry (`mcps.py`). -/
structure MCPCfg where
  useStdio : Bool
  mcpServerPath : Option String
  gatewayUrl : Option String
  maxRetries : Nat
  retryDelay : ℚ
deriving DecidableEq, Repr

/-- Whether the required transport parameter is present. -/
def cfgOk (cfg : MCPCfg) : Bool :=
  if cfg.useStdio then cfg.mcpServerPath.isSome else cfg.gatewayUrl.isSome

/-- `MCPManager._create_client_internal` (`mcps.py`): validates the required
transport parameter (raising `AgentExecutionError`, not a connection error,
when it is missing) and otherwise delegates to the setup helper.  The second
component counts transport connection attempts (0 when validation fails
before any attempt, 1 otherwise). -/
def create_client_internal (cfg : MCPCfg) (net : SetupOutcome) :
    Except CreateErr Unit × Nat :=
  if cfg.useStdio then
    match cfg.mcpServerPath with
    | none =>
        (.error (.execErr "mcp_server_path is required for stdio transport"), 0)
    | some _ => (setup_local_mcp_client net, 1)
  else
    match cfg.gatewayUrl with
    | none =>
        (.error
          (.execErr "gateway_url is required for streamable-http transport"), 0)
    | some _ => (setup_stremeable_mcp_client net, 1)

/-- Result of `MCPManager._create_client_with_retry`: connected on a given
0-based attempt, the fatal `AgentExecutionError` raised after exhausting
`max_retries` (wrapping the last connection error message, `none` only when
the loop body never ran), or an uncaught `AgentExecutionError` propagating
out of a single attempt. -/
inductive CreateRes
  | connected (attempt : Nat)
  | fatalRetries (attempts : Nat) (lastError : Option String)
  | fatalExec (msg : String)
deriving DecidableEq, Repr

/-- The loop body of `MCPManager._create_client_with_retry`, recursing on the
attempts remaining (`remaining + attempt = max_retries` at every call).
Only `MCPConnectionError` is caught; on every caught failure except the last
attempt it sleeps `self.retry_delay * (2 ** attempt)` and retries.  Returns
the result, the list of sleep durations in order, and the number of transport
connection attempts made. -/
def createGo (cfg : MCPCfg) (net : Nat → SetupOutcome) :
    Nat → Nat → CreateRes × List ℚ × Nat
  | _, 0 => (.fatalRetries cfg.maxRetries none, [], 0)
  | attempt, remaining + 1 =>
      match create_client_internal cfg (net attempt) with
      | (.ok _, t) => (.connected attempt, [], t)
      | (.error (.execErr m), t) => (.fatalExec m, [], t)
      | (.error (.connErr m), t) =>
          if remaining == 0 then
            (.fatalRetries cfg.maxRetries (some m), [], t)
          else
            ((createGo cfg net (attempt + 1) remaining).1,
             cfg.retryDelay * 2 ^ attempt ::
               (createGo cfg net (attempt + 1) remaining).2.1,
             t + (createGo cfg net (attempt + 1) remaining).2.2)

/-- `MCPManager._create_client_with_retry` (`mcps.py`); `net attempt` is the
transport outcome of the given 0-based attempt. -/
def create_client_with_retry (cfg : MCPCfg) (net : Nat → SetupOutcome) :
    CreateRes × List ℚ × Nat :=
  createGo cfg net 0 cfg.maxRetries

/-- Outcome of one `Agent._do_invoke` call (`agent.py`) as the retry loop in
`Agent.invoke` sees it: a normal result, a raised `MCPConnectionError`
(the side-channel flag was set during the call), or a raised
`AgentExecutionError` (any other exception, which the loop does not catch). -/
inductive DoOutcome
  | ok (resp : String)
  | connFail (msg : String)
  | otherFail (msg : String)
deriving DecidableEq, Repr

/-- Result of `Agent.invoke`. -/
inductive InvokeRes
  | success (resp : String)
  | fatalRetries (attempts : Nat) (lastError : Option String)
  | fatalOther (msg : String)
deriving DecidableEq, Repr

/-- The side effects `Agent._wait_and_reconnect` and
`Agent._reconnect_mcp_and_recreate_agent` perform between attempts, in
order: `time.sleep(retry_delay * (2 ** attempt))`, then
`self._mcp_manager.reconnect_all()`, then
`self._mcp_manager.get_filtered_tools()`, then
`self._create_strands_agent(tools)`. -/
inductive AgentOp
  | sleep (d : ℚ)
  | reconnectAll
  | fetchTools
  | rebuildAgent
deriving DecidableEq, Repr

def isReconnectOp : AgentOp → Bool
  | .reconnectAll => true
  | _ => false

def sleepsOfOps : List AgentOp → List ℚ
  | [] => []
  | .sleep d :: rest => d :: sleepsOfOps rest
  | _ :: rest => sleepsOfOps rest

/-- The loop body of `Agent.invoke` with an MCP manager configured
(`for attempt in range(max_retries)`), recursing on the attempts remaining.
`beh attempt` is what `_do_invoke` does on the given 0-based attempt.  Only
`MCPConnectionError` is caught; on every caught failure except the last
attempt it runs the wait-and-reconnect cycle and retries the whole turn;
on the last attempt it raises `AgentExecutionError` naming `max_retries`.
Returns the result and the trace of side operations. -/
def invokeGo (beh : Nat → DoOutcome) (maxRetries : Nat) (base : ℚ) :
    Nat → Nat → InvokeRes × List AgentOp
  | _, 0 => (.fatalRetries maxRetries none, [])
  | attempt, remaining + 1 =>
      match beh attempt with
      | .ok r => (.success r, [])
      | .otherFail m => (.fatalOther m, [])
      | .connFail m =>
          if remaining == 0 then (.fatalRetries maxRetries (some m), [])
          else
            ((invokeGo beh maxRetries base (attempt + 1) remaining).1,
             .sleep (base * 2 ^ attempt) :: .reconnectAll :: .fetchTools ::
               .rebuildAgent ::
               (invokeGo beh maxRetries base (attempt + 1) remaining).2)

/-- `Agent.invoke` (`agent.py`) with an MCP manager configured whose
`max_retries` and `retry_delay` are the given arguments. -/
def agent_invoke (beh : Nat → DoOutcome) (maxRetries : Nat) (base : ℚ) :
    InvokeRes × List AgentOp :=
  invokeGo beh maxRetries base 0 maxRetries

/-- The `attempt`-indexed wait-and-reconnect cycles performed by `k`
consecutive caught failures starting at attempt `attempt`. -/
def agentCycles (base : ℚ) : Nat → Nat → List AgentOp
  | _, 0 => []
  | attempt, k + 1 =>
      .sleep (base * 2 ^ attempt) :: .reconnectAll :: .fetchTools ::
        .rebuildAgent :: agentCycles base (attempt + 1) k

/-- The Strands agent state as `Agent._do_invoke` touches it: the
`mcp_connection_error` side-channel flag plus the remaining state entries
(opaque to `_do_invoke`). -/
structure AgentState where
  mcpConnectionError : Option String
  otherEntries : List (String × String)
deriving DecidableEq, Repr

/-- Whether the runtime call `self.agent(query)` returns normally or raises. -/
inductive RunOutcome
  | returns
  | raisedRun (msg : String)
deriving DecidableEq, Repr

/-- Result of `Agent._do_invoke`. -/
inductive DoRes
  | okRes
  | connError (msg : String)
  | execError (msg : String)
deriving DecidableEq, Repr

/-- `Agent._do_invoke` (`agent.py`): clears the `mcp_connection_error` state
entry, runs the runtime (`rt`, which receives the cleared state and returns
the state it leaves behind plus whether it raised), and, when the call
returned normally, raises `MCPConnectionError` exactly when the flag is now
set; a runtime exception skips the flag check and is wrapped as
`AgentExecutionError`. -/
def do_invoke (rt : AgentState → AgentState × RunOutcome) (s : AgentState) :
    DoRes × AgentState :=
  let s1 : AgentState := { s with mcpConnectionError := none }
  match rt s1 with
  | (s2, .raisedRun m) =>
      (.execError ("Error in agent invocation: " ++ m), s2)
  | (s2, .returns) =>
      match s2.mcpConnectionError with
      | some m => (.connError m, s2)
      | none => (.okRes, s2)

/-! ## Claim C2 -/

/-- A tool list containing one untagged tool and one tool tagged only `y`. -/
def c2Tools : List MCPTool :=
  [{ name := "untagged_tool", fastmcpTags := none },
   { name := "y_tool", fastmcpTags := some ["y"] }]

/-- C2, counterexample: `MCPManager.get_filtered_tools` called with an
explicitly passed empty tag list does NOT return an empty result — on a list
holding an untagged tool and an other-tagged tool it returns both tools
unchanged, because `if filter_tags:` treats the empty list as "no filtering
requested". -/
theorem c2_counterexample :
    get_filtered_tools [] c2Tools (some []) = c2Tools ∧ c2Tools ≠ [] := by
  decide

/-- C2 (amended): only the helper `filter_tools` maps an empty tag list to an
empty result; `MCPManager.get_filtered_tools` with an explicitly passed empty
filter list (like with an empty manager-level default) bypasses filtering
entirely and returns every fetched tool. -/
theorem c2_amended_empty_filter (toolTags : List String) (tools : List MCPTool) :
    get_filtered_tools toolTags tools (some []) = tools ∧
    filter_tools tools [] = [] := by
  constructor
  · rfl
  · refine List.filter_eq_nil_iff.2 ?_
    intro a _
    cases h : a.fastmcpTags <;> simp [h]

/-! ## Claim C7 -/

/-- C7: `call_mcp_tool` classifies a failure as `MCPConnectionError` exactly
when the result dict has status `"error"` and a `"content"` entry whose
lowercased text contains one of the fixed connection-error substrings; on a
connection-classified failure `MCPManager.call_tool` performs exactly one
reconnect and exactly one retry of the same call whose outcome (success or
second failure) propagates without further attempts; a failure classified as
generic `AgentExecutionError` propagates with no reconnect and no retry, as
does a success. -/
theorem c7_call_tool_classification_and_retry :
    (∀ st c sr, (∃ m, call_mcp_tool (.dict st c sr) = .connFailure m) ↔
        (st = some "error" ∧ ∃ s, c = some s ∧ containsConnIndicator s = true)) ∧
    (∀ first second m, call_mcp_tool first = .connFailure m →
        manager_call_tool first second = (call_mcp_tool second, 1, 2)) ∧
    (∀ first second m, call_mcp_tool first = .execFailure m →
        manager_call_tool first second = (.execFailure m, 0, 1)) ∧
    (∀ first second d, call_mcp_tool first = .okData d →
        manager_call_tool first second = (.okData d, 0, 1)) := by
  refine ⟨?_, ?_, ?_, ?_⟩
  · intro st c sr
    constructor
    · rintro ⟨m, hm⟩
      simp only [call_mcp_tool] at hm
      split at hm
      · rename_i hcond
        simp only [Bool.and_eq_true, beq_iff_eq] at hcond
        obtain ⟨hst, hc⟩ := hcond
        refine ⟨hst, ?_⟩
        cases c with
        | none => exact absurd hc (by simp)
        | some s => exact ⟨s, rfl, hc⟩
      · split at hm <;> exact absurd hm (by simp)
    · rintro ⟨hst, s, hc, hind⟩
      subst hst
      subst hc
      refine ⟨"MCP connection error: " ++ s, ?_⟩
      simp only [call_mcp_tool]
      rw [if_pos (by simp [hind])]
      rfl
  · intro first second m h
    unfold manager_call_tool
    rw [h]
  · intro first second m h
    unfold manager_call_tool
    rw [h]
  · intro first second d h
    unfold manager_call_tool
    rw [h]

/-- Witness for C7 at concrete inputs: a case-mixed "Connection Closed by
peer" failure is classified as a connection error and triggers exactly one
reconnect plus one retry whose own (connection) failure propagates; a
"division by zero" failure is generic and triggers neither; a success result
passes straight through. -/
theorem c7_witness :
    manager_call_tool
        (.dict (some "error") (some "Connection Closed by peer") none)
        (.dict (some "error") (some "Unable To Connect: giving up") none) =
      (.connFailure "MCP connection error: Unable To Connect: giving up", 1, 2) ∧
    manager_call_tool (.dict (some "error") (some "division by zero") none)
        (.dict (some "success") none (some "d")) =
      (.execFailure "MCP tool returned unexpected structure", 0, 1) ∧
    manager_call_tool (.dict (some "success") none (some "data")) .nonDict =
      (.okData "data", 0, 1) := by
  refine ⟨?_, ?_, ?_⟩
  · exact (c7_call_tool_classification_and_retry.2.1 _ _
      "MCP connection error: Connection Closed by peer" (by decide)).trans (by decide)
  · exact c7_call_tool_classification_and_retry.2.2.1 _ _
      "MCP tool returned unexpected structure" (by decide)
  · exact c7_call_tool_classification_and_retry.2.2.2 _ _ "data" (by decide)

/-! ## Claim C8 -/

/-- C8: a manager configuration missing its required transport parameter
(no `mcp_server_path` for stdio, no `gateway_url` for streamable-http) makes
connection creation raise `AgentExecutionError` — not a connection error —
which the retry loop does not catch: it propagates on the first attempt with
zero sleeps and zero transport connection attempts. -/
theorem c8_missing_config_not_retried (cfg : MCPCfg) (net : Nat → SetupOutcome)
    (hmr : 0 < cfg.maxRetries) :
    (cfg.useStdio = true → cfg.mcpServerPath = none →
      create_client_with_retry cfg net =
        (.fatalExec "mcp_server_path is required for stdio transport", [], 0)) ∧
    (cfg.useStdio = false → cfg.gatewayUrl = none →
      create_client_with_retry cfg net =
        (.fatalExec "gateway_url is required for streamable-http transport",
         [], 0)) := by
  obtain ⟨r, hr⟩ : ∃ r, cfg.maxRetries = r + 1 := ⟨cfg.maxRetries - 1, by omega⟩
  unfold create_client_with_retry
  rw [hr]
  constructor <;> intro h1 h2 <;>
    simp [createGo, create_client_internal, h1, h2]

/-- Witness for C8: both misconfigured managers (stdio with no server path,
streamable-http with no gateway url) fail fatally with no sleep and no
transport attempt even though the transport itself would have succeeded. -/
theorem c8_witness :
    create_client_with_retry
        { useStdio := true, mcpServerPath := none, gatewayUrl := none
          maxRetries := 3, retryDelay := 1 } (fun _ => .ok) =
      (.fatalExec "mcp_server_path is required for stdio transport", [], 0) ∧
    create_client_with_retry
        { useStdio := false, mcpServerPath := none, gatewayUrl := none
          maxRetries := 3, retryDelay := 1 } (fun _ => .ok) =
      (.fatalExec "gateway_url is required for streamable-http transport",
       [], 0) :=
  ⟨(c8_missing_config_not_retried _ (fun _ => .ok) (by decide)).1 rfl rfl,
   (c8_missing_config_not_retried _ (fun _ => .ok) (by decide)).2 rfl rfl⟩

/-! ## Claim C6 -/

/-- The `MCPConnectionError` message produced by a failed transport attempt,
per transport. -/
def connMsgOf (cfg : MCPCfg) (m : String) : String :=
  if cfg.useStdio then "Error initializing stdio MCP client: " ++ m
  else "Error initializing streamable HTTP MCP client: " ++ m

theorem create_client_internal_ok (cfg : MCPCfg) (hcfg : cfgOk cfg = true) :
    create_client_internal cfg .ok = (.ok (), 1) := by
  obtain ⟨us, path, url, mr, rd⟩ := cfg
  cases us
  · obtain ⟨u, rfl⟩ := Option.isSome_iff_exists.1 (by simpa [cfgOk] using hcfg)
    rfl
  · obtain ⟨p, rfl⟩ := Option.isSome_iff_exists.1 (by simpa [cfgOk] using hcfg)
    rfl

theorem create_client_internal_initFail (cfg : MCPCfg)
    (hcfg : cfgOk cfg = true) (m : String) :
    create_client_internal cfg (.initFail m) =
      (.error (.connErr (connMsgOf cfg m)), 1) := by
  obtain ⟨us, path, url, mr, rd⟩ := cfg
  cases us
  · obtain ⟨u, rfl⟩ := Option.isSome_iff_exists.1 (by simpa [cfgOk] using hcfg)
    rfl
  · obtain ⟨p, rfl⟩ := Option.isSome_iff_exists.1 (by simpa [cfgOk] using hcfg)
    rfl

theorem range_map_pow_cons (c : ℚ) (attempt k : Nat) :
    (List.range (k + 1)).map (fun i => c * 2 ^ (attempt + i)) =
      c * 2 ^ attempt :: (List.range k).map (fun i => c * 2 ^ (attempt + 1 + i)) := by
  rw [List.range_succ_eq_map, List.map_cons, List.map_map]
  have hf : ((fun i => c * 2 ^ (attempt + i)) ∘ Nat.succ) =
      (fun i => c * 2 ^ (attempt + 1 + i)) := by
    funext i
    show c * 2 ^ (attempt + Nat.succ i) = c * 2 ^ (attempt + 1 + i)
    have hx : attempt + Nat.succ i = attempt + 1 + i := by omega
    rw [hx]
  rw [hf]
  norm_num

theorem createGo_step_conn (cfg : MCPCfg) (net : Nat → SetupOutcome)
    (attempt r : Nat) (m : String)
    (h : create_client_internal cfg (net attempt) = (.error (.connErr m), 1))
    (hr : r ≠ 0) :
    createGo cfg net attempt (r + 1) =
      ((createGo cfg net (attempt + 1) r).1,
       cfg.retryDelay * 2 ^ attempt :: (createGo cfg net (attempt + 1) r).2.1,
       1 + (createGo cfg net (attempt + 1) r).2.2) := by
  have hr2 : (r == 0) = false := beq_eq_false_iff_ne.2 hr
  simp only [createGo, h, hr2, Bool.false_eq_true, if_false]

theorem createGo_success (cfg : MCPCfg) (net : Nat → SetupOutcome)
    (hcfg : cfgOk cfg = true) :
    ∀ (k attempt remaining : Nat), k < remaining →
      (∀ i, i < k → ∃ m, net (attempt + i) = .initFail m) →
      net (attempt + k) = .ok →
      createGo cfg net attempt remaining =
        (.connected (attempt + k),
         (List.range k).map (fun i => cfg.retryDelay * 2 ^ (attempt + i)),
         k + 1) := by
  intro k
  induction k with
  | zero =>
      intro attempt remaining hlt hfail hok
      obtain ⟨r, rfl⟩ : ∃ r, remaining = r + 1 := ⟨remaining - 1, by omega⟩
      rw [Nat.add_zero] at hok
      simp [createGo, hok, create_client_internal_ok cfg hcfg]
  | succ k ih =>
      intro attempt remaining hlt hfail hok
      obtain ⟨r, rfl⟩ : ∃ r, remaining = r + 1 := ⟨remaining - 1, by omega⟩
      obtain ⟨m0, hm0⟩ := hfail 0 (by omega)
      rw [Nat.add_zero] at hm0
      have hrec := ih (attempt + 1) r (by omega)
        (fun i hi => by
          obtain ⟨m, hm⟩ := hfail (i + 1) (by omega)
          exact ⟨m, by rw [show attempt + 1 + i = attempt + (i + 1) by omega]; exact hm⟩)
        (by rw [show attempt + 1 + k = attempt + (k + 1) by omega]; exact hok)
      have hstep := createGo_step_conn cfg net attempt r (connMsgOf cfg m0)
        (by rw [hm0]; exact create_client_internal_initFail cfg hcfg m0)
        (by omega)
      rw [hstep, hrec, range_map_pow_cons]
      have h1 : attempt + 1 + k = attempt + (k + 1) := by omega
      have h2 : 1 + (k + 1) = k + 1 + 1 := by omega
      rw [h1, h2]

theorem createGo_allfail (cfg : MCPCfg) (net : Nat → SetupOutcome)
    (hcfg : cfgOk cfg = true) :
    ∀ (remaining attempt : Nat) (mlast : String), 0 < remaining →
      (∀ i, i < remaining → ∃ m, net (attempt + i) = .initFail m) →
      net (attempt + (remaining - 1)) = .initFail mlast →
      createGo cfg net attempt remaining =
        (.fatalRetries cfg.maxRetries (some (connMsgOf cfg mlast)),
         (List.range (remaining - 1)).map
           (fun i => cfg.retryDelay * 2 ^ (attempt + i)),
         remaining) := by
  intro remaining
  induction remaining with
  | zero => intro attempt mlast hpos; omega
  | succ r ih =>
      intro attempt mlast hpos hfail hlast
      cases r with
      | zero =>
          rw [Nat.add_zero] at hlast
          simp [createGo, hlast, create_client_internal_initFail cfg hcfg]
      | succ r2 =>
          obtain ⟨m0, hm0⟩ := hfail 0 (by omega)
          rw [Nat.add_zero] at hm0
          have hrec := ih (attempt + 1) mlast (by omega)
            (fun i hi => by
              obtain ⟨m, hm⟩ := hfail (i + 1) (by omega)
              exact ⟨m, by rw [show attempt + 1 + i = attempt + (i + 1) by omega]; exact hm⟩)
            (by rw [show attempt + 1 + (r2 + 1 - 1) = attempt + (r2 + 1 + 1 - 1) by omega]
                exact hlast)
          have hstep := createGo_step_conn cfg net attempt (r2 + 1) (connMsgOf cfg m0)
            (by rw [hm0]; exact create_client_internal_initFail cfg hcfg m0)
            (by omega)
          rw [hstep, hrec]
          simp only [Nat.add_sub_cancel]
          rw [range_map_pow_cons]
          have h2 : 1 + (r2 + 1) = r2 + 1 + 1 := by omega
          rw [h2]

/-- C6: with a valid transport configuration, `_create_client_with_retry`
sleeps `retry_delay * 2 ^ attempt` after each failed attempt except the last:
if the transport fails on the first `k` attempts and succeeds on attempt
`k` (0-based) with `k < max_retries`, the manager reaches the connected state
having performed exactly one sleep per prior failure (the sleeps being
`retry_delay * 2 ^ 0, ..., retry_delay * 2 ^ (k-1)` in order); if all
`max_retries` attempts fail, it raises a fatal `AgentExecutionError` wrapping
the last connection error, with exactly `max_retries - 1` sleeps, none after
the last failure. -/
theorem c6_connection_retry_backoff (cfg : MCPCfg) (net : Nat → SetupOutcome)
    (k : Nat) (hcfg : cfgOk cfg = true) (hk : k < cfg.maxRetries)
    (hfail : ∀ i, i < k → ∃ m, net i = .initFail m)
    (hok : net k = .ok) :
    create_client_with_retry cfg net =
      (.connected k, (List.range k).map (fun i => cfg.retryDelay * 2 ^ i),
       k + 1) ∧
    ∀ (net2 : Nat → SetupOutcome) (mlast : String),
      (∀ i, i < cfg.maxRetries → ∃ m, net2 i = .initFail m) →
      net2 (cfg.maxRetries - 1) = .initFail mlast →
      create_client_with_retry cfg net2 =
        (.fatalRetries cfg.maxRetries (some (connMsgOf cfg mlast)),
         (List.range (cfg.maxRetries - 1)).map
           (fun i => cfg.retryDelay * 2 ^ i),
         cfg.maxRetries) := by
  constructor
  · have h := createGo_success cfg net hcfg k 0 cfg.maxRetries hk
      (by simpa using hfail) (by simpa using hok)
    simpa [create_client_with_retry] using h
  · intro net2 mlast hfail2 hlast2
    have h := createGo_allfail cfg net2 hcfg cfg.maxRetries 0 mlast
      (by omega) (by simpa using hfail2) (by simpa using hlast2)
    simpa [create_client_with_retry] using h

/-- Witness for C6 with `max_retries = 3`, base delay 1: a transport failing
twice then succeeding reaches `connected` on attempt 2 after sleeps of 1 and
2 seconds; a transport failing three times raises the fatal wrapped error
after the same two sleeps and no further one. -/
theorem c6_witness :
    create_client_with_retry
        { useStdio := true, mcpServerPath := some "server.py"
          gatewayUrl := none, maxRetries := 3, retryDelay := 1 }
        (fun i => if i < 2 then .initFail "connection refused" else .ok) =
      (.connected 2, [1, 2], 3) ∧
    create_client_with_retry
        { useStdio := true, mcpServerPath := some "server.py"
          gatewayUrl := none, maxRetries := 3, retryDelay := 1 }
        (fun _ => .initFail "connection refused") =
      (.fatalRetries 3
         (some "Error initializing stdio MCP client: connection refused"),
       [1, 2], 3) := by
  have h := c6_connection_retry_backoff
    { useStdio := true, mcpServerPath := some "server.py"
      gatewayUrl := none, maxRetries := 3, retryDelay := 1 }
    (fun i => if i < 2 then .initFail "connection refused" else .ok) 2
    (by decide) (by decide)
    (fun i hi => ⟨"connection refused", by simp [hi]⟩)
    (by norm_num)
  constructor
  · refine h.1.trans ?_
    norm_num [List.range_succ]
  · refine (h.2 (fun _ => .initFail "connection refused") "connection refused"
      (fun i _ => ⟨"connection refused", rfl⟩) rfl).trans ?_
    norm_num [List.range_succ, connMsgOf]
    decide

/-! ## Claim C5 -/

theorem agentCycles_count (base : ℚ) :
    ∀ (k attempt : Nat),
      (agentCycles base attempt k).countP isReconnectOp = k := by
  intro k
  induction k with
  | zero => intro attempt; rfl
  | succ k ih =>
      intro attempt
      simp [agentCycles, List.countP_cons, isReconnectOp, ih (attempt + 1)]

theorem invokeGo_step_conn (beh : Nat → DoOutcome) (maxR : Nat) (base : ℚ)
    (attempt r : Nat) (m : String)
    (h : beh attempt = .connFail m) (hr : r ≠ 0) :
    invokeGo beh maxR base attempt (r + 1) =
      ((invokeGo beh maxR base (attempt + 1) r).1,
       .sleep (base * 2 ^ attempt) :: .reconnectAll :: .fetchTools ::
         .rebuildAgent :: (invokeGo beh maxR base (attempt + 1) r).2) := by
  have hr2 : (r == 0) = false := beq_eq_false_iff_ne.2 hr
  simp only [invokeGo, h, hr2, Bool.false_eq_true, if_false]

theorem invokeGo_success (beh : Nat → DoOutcome) (maxR : Nat) (base : ℚ) :
    ∀ (k attempt remaining : Nat) (r : String), k < remaining →
      (∀ i, i < k → ∃ m, beh (attempt + i) = .connFail m) →
      beh (attempt + k) = .ok r →
      invokeGo beh maxR base attempt remaining =
        (.success r, agentCycles base attempt k) := by
  intro k
  induction k with
  | zero =>
      intro attempt remaining r hlt hfail hok
      obtain ⟨n, rfl⟩ : ∃ n, remaining = n + 1 := ⟨remaining - 1, by omega⟩
      rw [Nat.add_zero] at hok
      simp [invokeGo, hok, agentCycles]
  | succ k ih =>
      intro attempt remaining r hlt hfail hok
      obtain ⟨n, rfl⟩ : ∃ n, remaining = n + 1 := ⟨remaining - 1, by omega⟩
      obtain ⟨m0, hm0⟩ := hfail 0 (by omega)
      rw [Nat.add_zero] at hm0
      have hrec := ih (attempt + 1) n r (by omega)
        (fun i hi => by
          obtain ⟨m, hm⟩ := hfail (i + 1) (by omega)
          exact ⟨m, by rw [show attempt + 1 + i = attempt + (i + 1) by omega]; exact hm⟩)
        (by rw [show attempt + 1 + k = attempt + (k + 1) by omega]; exact hok)
      rw [invokeGo_step_conn beh maxR base attempt n m0 hm0 (by omega), hrec]
      rfl

theorem invokeGo_allfail (beh : Nat → DoOutcome) (maxR : Nat) (base : ℚ) :
    ∀ (remaining attempt : Nat) (mlast : String), 0 < remaining →
      (∀ i, i < remaining → ∃ m, beh (attempt + i) = .connFail m) →
      beh (attempt + (remaining - 1)) = .connFail mlast →
      invokeGo beh maxR base attempt remaining =
        (.fatalRetries maxR (some mlast),
         agentCycles base attempt (remaining - 1)) := by
  intro remaining
  induction remaining with
  | zero => intro attempt mlast hpos; omega
  | succ n ih =>
      intro attempt mlast hpos hfail hlast
      cases n with
      | zero =>
          rw [Nat.add_zero] at hlast
          simp [invokeGo, hlast, agentCycles]
      | succ n2 =>
          obtain ⟨m0, hm0⟩ := hfail 0 (by omega)
          rw [Nat.add_zero] at hm0
          have hrec := ih (attempt + 1) mlast (by omega)
            (fun i hi => by
              obtain ⟨m, hm⟩ := hfail (i + 1) (by omega)
              exact ⟨m, by rw [show attempt + 1 + i = attempt + (i + 1) by omega]; exact hm⟩)
            (by rw [show attempt + 1 + (n2 + 1 - 1) = attempt + (n2 + 1 + 1 - 1) by omega]
                exact hlast)
          rw [invokeGo_step_conn beh maxR base attempt (n2 + 1) m0 hm0 (by omega),
            hrec]
          simp only [Nat.add_sub_cancel]
          rfl

/-- C5: with an MCP manager configured (`max_retries = n`), if `_do_invoke`
raises a connection failure on the first `k` attempts (`k < n`) and succeeds
on attempt `k` (0-based, i.e. the `k+1`-st attempt), `Agent.invoke` returns
that attempt's result after exactly `k` wait-and-reconnect cycles, the `i`-th
cycle sleeping `retry_delay * 2 ^ i` then reconnecting, fetching fresh
filtered tools and rebuilding the runtime; if all `n` attempts raise a
connection failure, `invoke` raises `AgentExecutionError` naming the `n`
attempts and performs only `n - 1` reconnect cycles. -/
theorem c5_agent_invoke_retry (beh : Nat → DoOutcome) (n k : Nat) (base : ℚ)
    (r : String) (hk : k < n)
    (hfail : ∀ i, i < k → ∃ m, beh i = .connFail m)
    (hok : beh k = .ok r) :
    (agent_invoke beh n base = (.success r, agentCycles base 0 k) ∧
     (agent_invoke beh n base).2.countP isReconnectOp = k) ∧
    ∀ (beh2 : Nat → DoOutcome) (mlast : String),
      (∀ i, i < n → ∃ m, beh2 i = .connFail m) →
      beh2 (n - 1) = .connFail mlast →
      agent_invoke beh2 n base =
          (.fatalRetries n (some mlast), agentCycles base 0 (n - 1)) ∧
      (agent_invoke beh2 n base).2.countP isReconnectOp = n - 1 := by
  have hs : agent_invoke beh n base = (.success r, agentCycles base 0 k) := by
    have h := invokeGo_success beh n base k 0 n r hk
      (by simpa using hfail) (by simpa using hok)
    simpa [agent_invoke] using h
  refine ⟨⟨hs, by rw [hs]; exact agentCycles_count base k 0⟩, ?_⟩
  intro beh2 mlast hfail2 hlast2
  have hf : agent_invoke beh2 n base =
      (.fatalRetries n (some mlast), agentCycles base 0 (n - 1)) := by
    have h := invokeGo_allfail beh2 n base n 0 mlast (by omega)
      (by simpa using hfail2) (by simpa using hlast2)
    simpa [agent_invoke] using h
  exact ⟨hf, by rw [hf]; exact agentCycles_count base (n - 1) 0⟩

/-- Witness for C5 with `max_retries = 3`, base delay 1: a runtime signalling
connection failures on attempts 0 and 1 and succeeding on attempt 2 yields
the attempt-2 result after exactly 2 reconnect cycles; a runtime failing on
all 3 attempts yields the fatal error naming 3 attempts after 2 cycles. -/
theorem c5_witness :
    agent_invoke (fun i => if i < 2 then .connFail "mcp down" else .ok "answer")
        3 1 = (.success "answer", agentCycles 1 0 2) ∧
    agent_invoke (fun _ => .connFail "mcp down") 3 1 =
      (.fatalRetries 3 (some "mcp down"), agentCycles 1 0 2) := by
  have h := c5_agent_invoke_retry
    (fun i => if i < 2 then .connFail "mcp down" else .ok "answer") 3 2 1
    "answer" (by omega) (fun i hi => ⟨"mcp down", by simp [hi]⟩)
    (by norm_num)
  exact ⟨h.1.1,
    (h.2 (fun _ => .connFail "mcp down") "mcp down"
      (fun i _ => ⟨"mcp down", rfl⟩) rfl).1⟩

/-! ## Claim C9 -/

theorem createGo_sleeps (cfg : MCPCfg) (net : Nat → SetupOutcome) :
    ∀ (remaining attempt : Nat), ∃ k,
      (createGo cfg net attempt remaining).2.1 =
        (List.range k).map (fun i => cfg.retryDelay * 2 ^ (attempt + i)) := by
  intro remaining
  induction remaining with
  | zero => intro attempt; exact ⟨0, by simp [createGo]⟩
  | succ n ih =>
      intro attempt
      rcases hi : create_client_internal cfg (net attempt) with ⟨res, t⟩
      cases res with
      | ok u => exact ⟨0, by simp [createGo, hi]⟩
      | error e =>
          cases e with
          | execErr m => exact ⟨0, by simp [createGo, hi]⟩
          | connErr m =>
              by_cases hn : n = 0
              · subst hn
                exact ⟨0, by simp [createGo, hi]⟩
              · obtain ⟨k, hk⟩ := ih (attempt + 1)
                refine ⟨k + 1, ?_⟩
                have hr2 : (n == 0) = false := beq_eq_false_iff_ne.2 hn
                simp only [createGo, hi, hr2, Bool.false_eq_true, if_false]
                rw [hk, range_map_pow_cons]

theorem invokeGo_sleeps (beh : Nat → DoOutcome) (maxR : Nat) (base : ℚ) :
    ∀ (remaining attempt : Nat), ∃ k,
      sleepsOfOps (invokeGo beh maxR base attempt remaining).2 =
        (List.range k).map (fun i => base * 2 ^ (attempt + i)) := by
  intro remaining
  induction remaining with
  | zero => intro attempt; exact ⟨0, by simp [invokeGo, sleepsOfOps]⟩
  | succ n ih =>
      intro attempt
      rcases hb : beh attempt with r | m | m
      · exact ⟨0, by simp [invokeGo, hb, sleepsOfOps]⟩
      · by_cases hn : n = 0
        · subst hn
          exact ⟨0, by simp [invokeGo, hb, sleepsOfOps]⟩
        · obtain ⟨k, hk⟩ := ih (attempt + 1)
          refine ⟨k + 1, ?_⟩
          rw [invokeGo_step_conn beh maxR base attempt n m hb hn]
          simp only [sleepsOfOps]
          rw [hk, range_map_pow_cons]
      · exact ⟨0, by simp [invokeGo, hb, sleepsOfOps]⟩

/-- C9: the delay slept before the `i`-th retry (0-based) is exactly
`base_delay * 2 ^ i` — no jitter and no upper cap — both in the connection
manager's retry loop (`_create_client_with_retry`) and in the agent's
turn-level retry loop (`Agent.invoke` via `_wait_and_reconnect`): every sleep
trace either loop can produce is an initial segment of the sequence
`base * 2 ^ 0, base * 2 ^ 1, base * 2 ^ 2, ...`. -/
theorem c9_backoff_exact :
    (∀ (cfg : MCPCfg) (net : Nat → SetupOutcome),
      (create_client_with_retry cfg net).2.1 =
        (List.range (create_client_with_retry cfg net).2.1.length).map
          (fun i => cfg.retryDelay * 2 ^ i)) ∧
    (∀ (beh : Nat → DoOutcome) (n : Nat) (base : ℚ),
      sleepsOfOps (agent_invoke beh n base).2 =
        (List.range (sleepsOfOps (agent_invoke beh n base).2).length).map
          (fun i => base * 2 ^ i)) := by
  constructor
  · intro cfg net
    obtain ⟨k, hk⟩ := createGo_sleeps cfg net cfg.maxRetries 0
    unfold create_client_with_retry
    rw [hk]
    simp
  · intro beh n base
    obtain ⟨k, hk⟩ := invokeGo_sleeps beh n base n 0
    unfold agent_invoke
    rw [hk]
    simp

/-! ## Claim C10 -/

/-- C10: `Agent._do_invoke` clears the `mcp_connection_error` side-channel
flag before calling the runtime, so its outcome (and the state it leaves) is
identical for any stale flag value left by a previous turn or attempt, and it
raises `MCPConnectionError m` if and only if the runtime returned normally
having set the flag to `m` during that same call. -/
theorem c10_flag_cleared_each_attempt
    (rt : AgentState → AgentState × RunOutcome) (s : AgentState)
    (f f2 : Option String) :
    do_invoke rt { s with mcpConnectionError := f } =
      do_invoke rt { s with mcpConnectionError := f2 } ∧
    ∀ m, (do_invoke rt s).1 = .connError m ↔
      ((rt { s with mcpConnectionError := none }).2 = .returns ∧
       (rt { s with mcpConnectionError := none }).1.mcpConnectionError =
         some m) := by
  constructor
  · rfl
  · intro m
    unfold do_invoke
    rcases h : rt { s with mcpConnectionError := none } with ⟨s2, out⟩
    cases out with
    | returns =>
        cases h2 : s2.mcpConnectionError with
        | none => simp [h, h2]
        | some m2 => simp [h, h2, eq_comm]
    | raisedRun msg => simp [h]

/-! ## Claim C1 -/

theorem convert_strands_event_clean (s : StrandsState) (e : StrandsEvent) :
    ∀ ev ∈ (convert_strands_event s e).1,
      isTerminal ev = false ∧ isTextMessageEnd ev = false := by
  intro ev hev
  cases e with
  | dataDelta t =>
      simp only [convert_strands_event, List.mem_singleton] at hev
      subst hev
      exact ⟨rfl, rfl⟩
  | blockStartToolUse name =>
      simp only [convert_strands_event, List.mem_singleton] at hev
      subst hev
      exact ⟨rfl, rfl⟩
  | blockStartOther => simp [convert_strands_event] at hev
  | blockDeltaToolUse input =>
      simp only [convert_strands_event] at hev
      split at hev
      · simp only [List.mem_singleton] at hev
        subst hev
        exact ⟨rfl, rfl⟩
      · simp at hev
  | blockDeltaOther => simp [convert_strands_event] at hev
  | blockStop =>
      simp only [convert_strands_event] at hev
      split at hev
      · simp only [strands_end_tool_call, List.mem_cons,
          List.not_mem_nil, or_false] at hev
        rcases hev with h | h <;> subst h <;> exact ⟨rfl, rfl⟩
      · simp at hev
  | other => simp [convert_strands_event] at hev

theorem processStrandsItems_clean (items : List StrandsRawItem) :
    ∀ (s : StrandsState), ∀ ev ∈ (processStrandsItems s items).1,
      isTerminal ev = false ∧ isTextMessageEnd ev = false := by
  induction items with
  | nil => intro s ev hev; simp [processStrandsItems] at hev
  | cons it rest ih =>
      intro s ev hev
      cases it with
      | raised m => simp [processStrandsItems] at hev
      | ev e =>
          simp only [processStrandsItems, List.mem_append] at hev
          rcases hev with h | h
          · exact convert_strands_event_clean s e ev h
          · exact ih _ ev h

theorem processStrandsItems_err (items : List StrandsRawItem) :
    ∀ s, (processStrandsItems s items).2.2 = firstRaise items := by
  induction items with
  | nil => intro s; rfl
  | cons it rest ih =>
      intro s
      cases it with
      | raised m => rfl
      | ev e =>
          simp only [processStrandsItems, firstRaise]
          exact ih _

/-- C1: for every raw event stream (exceptions allowed at any point) and any
structured-output value, the event sequence emitted by
`Agent.stream_with_agui_bridge` begins with `RUN_STARTED`, contains exactly
one terminal event which is its last element — `RUN_FINISHED` carrying the
structured result when no exception occurred, `RUN_ERROR` otherwise — and on
error it short-circuits directly from the failure point to `RUN_ERROR`:
`TEXT_MESSAGE_END` is emitted exactly on the no-error runs, and the whole
error output is the prefix converted so far followed immediately by
`RUN_ERROR` with no closing events in between. -/
theorem c1_stream_terminal_events (t u : String) (items : List StrandsRawItem)
    (structured : Option String) :
    (stream_with_agui_bridge t u items structured).head? =
        some (.runStarted t (t ++ "_" ++ u)) ∧
    (stream_with_agui_bridge t u items structured).countP isTerminal = 1 ∧
    (stream_with_agui_bridge t u items structured).getLast? =
        some (match firstRaise items with
              | some m => .runError m
              | none => .runFinished t (t ++ "_" ++ u) structured) ∧
    (stream_with_agui_bridge t u items structured).any isTextMessageEnd =
        (firstRaise items).isNone ∧
    (match firstRaise items with
     | some m =>
        stream_with_agui_bridge t u items structured =
          .runStarted t (t ++ "_" ++ u) ::
            (strands_start_message strandsInit "assistant").1 ::
            (processStrandsItems
              (strands_start_message strandsInit "assistant").2 items).1 ++
            [.runError m]
     | none => True) := by
  have herr := processStrandsItems_err items
    (strands_start_message strandsInit "assistant").2
  have hclean := processStrandsItems_clean items
    (strands_start_message strandsInit "assistant").2
  have hcount : ((processStrandsItems
      (strands_start_message strandsInit "assistant").2 items).1).countP
        isTerminal = 0 :=
    List.countP_eq_zero.2 (fun ev h => by simp [(hclean ev h).1])
  have hany : ((processStrandsItems
      (strands_start_message strandsInit "assistant").2 items).1).any
        isTextMessageEnd = false :=
    List.any_eq_false.2 (fun ev h => by simp [(hclean ev h).2])
  simp only [stream_with_agui_bridge]
  rw [herr]
  cases hfr : firstRaise items with
  | some m =>
      refine ⟨rfl, ?_, ?_, ?_, rfl⟩
      · simp [List.countP_cons, List.countP_append, hcount, isTerminal,
          strands_start_message]
        exact fun a ha => (hclean a ha).1
      · exact List.getLast?_concat _
      · simp [List.any_cons, List.any_append, hany, isTextMessageEnd,
          strands_start_message]
        exact fun a ha => (hclean a ha).2
  | none =>
      refine ⟨rfl, ?_, ?_, ?_, trivial⟩
      · simp [List.countP_cons, List.countP_append, hcount, isTerminal,
          strands_start_message]
        exact fun a ha => (hclean a ha).1
      · rw [show ([WireEvent.textMessageEnd (processStrandsItems
            (strands_start_message strandsInit "assistant").2 items).2.1.currentMessageId,
            WireEvent.runFinished t (t ++ "_" ++ u) structured]) =
            [WireEvent.textMessageEnd (processStrandsItems
              (strands_start_message strandsInit "assistant").2 items).2.1.currentMessageId] ++
            [WireEvent.runFinished t (t ++ "_" ++ u) structured] from rfl,
          ← List.append_assoc]
        exact List.getLast?_concat _
      · simp [List.any_cons, List.any_append, hany, isTextMessageEnd,
          strands_start_message]

/-! ## Claim C3 -/

/-- C3, counterexample: when the Strands raw stream ends while a tool call is
still open (here, right after a `contentBlockStart`/`toolUse` event), the
bridge state still holds the open tool-call id, yet
`Agent.stream_with_agui_bridge` emits no `TOOL_CALL_RESULT` and no
`TOOL_CALL_END` for it — no force-close happens at stream end on the Strands
path. -/
theorem c3_counterexample :
    (processStrandsItems (strands_start_message strandsInit "assistant").2
        [.ev (.blockStartToolUse "search")]).2.1.currentToolCallId =
      some "uuid-1" ∧
    (stream_with_agui_bridge "t" "u" [.ev (.blockStartToolUse "search")]
        none).any isToolCallStart = true ∧
    (stream_with_agui_bridge "t" "u" [.ev (.blockStartToolUse "search")]
        none).any isToolCallEnd = false ∧
    (stream_with_agui_bridge "t" "u" [.ev (.blockStartToolUse "search")]
        none).any isToolCallResult = false := by
  decide

theorem lcProcessItems_open_started (items : List LCRawItem) :
    ∀ (s : LCState) (i : String),
      (lcProcessItems s items).2.2 = none →
      (lcProcessItems s items).2.1.currentToolCallId = some i →
      s.currentToolCallId = some i ∨
        ∃ nm p, WireEvent.toolCallStart (some i) nm p ∈
          (lcProcessItems s items).1 := by
  induction items with
  | nil => intro s i herr hopen; exact Or.inl hopen
  | cons it rest ih =>
      intro s i herr hopen
      cases it with
      | raised m => simp [lcProcessItems] at herr
      | ev e =>
          simp only [lcProcessItems] at herr hopen ⊢
          rcases ih (process_stream_event s e).2 i herr hopen with h | ⟨nm, p, hmem⟩
          · cases e with
            | chatModelStream c => exact Or.inl h
            | otherEvent => exact Or.inl h
            | onToolEnd output =>
                simp only [process_stream_event] at h
                split at h
                · simp [lc_end_tool_call] at h
                · exact Or.inl h
            | onToolStart nm eventId input =>
                right
                simp only [process_stream_event] at h
                have hi : "tool_" ++ toString eventId = i := by simpa using h
                subst hi
                exact ⟨nm, _, List.mem_append_left _
                  (List.mem_append_right _ (List.mem_cons_self _ _))⟩
          · exact Or.inr ⟨nm, p, List.mem_append_right _ hmem⟩

/-- C3 (amended): the stream-end force-close behaviour exists on the
LangChain path, not the Strands one: for every
`AgentLangchain.stream_with_agui_bridge` run that completes without an
exception while a tool call `i` is still open, the output contains a
`TOOL_CALL_START` for `i` in the converted body and closes `i` with a
`TOOL_CALL_RESULT`/`TOOL_CALL_END` pair immediately before
`TEXT_MESSAGE_END`, so the `{START, RESULT, END}` triple for `i` is complete
and precedes `TEXT_MESSAGE_END`; the Strands `Agent.stream_with_agui_bridge`
performs no such force-close and leaves the triple incomplete
(counterexample). -/
theorem c3_amended_lc_stream_forces_close (t u : String)
    (items : List LCRawItem) (i : String)
    (hnoerr : (lcProcessItems (lc_start_message lcInit "assistant").2
        items).2.2 = none)
    (hopen : (lcProcessItems (lc_start_message lcInit "assistant").2
        items).2.1.currentToolCallId = some i) :
    (∃ nm p, WireEvent.toolCallStart (some i) nm p ∈
        (lcProcessItems (lc_start_message lcInit "assistant").2 items).1) ∧
    lc_stream_with_agui_bridge t u items =
      .runStarted t (t ++ "_" ++ u) ::
        (lc_start_message lcInit "assistant").1 ::
        (lcProcessItems (lc_start_message lcInit "assistant").2 items).1 ++
        [.toolCallResult (some i)
           (lcProcessItems (lc_start_message lcInit "assistant").2
             items).2.1.currentMessageId "Tool executed successfully" "tool",
         .toolCallEnd (some i),
         .textMessageEnd (lcProcessItems
           (lc_start_message lcInit "assistant").2 items).2.1.currentMessageId,
         .runFinished t (t ++ "_" ++ u) none] := by
  constructor
  · rcases lcProcessItems_open_started items _ i hnoerr hopen with h | h
    · simp [lc_start_message, lcInit] at h
    · exact h
  · simp only [lc_stream_with_agui_bridge, lc_end_tool_call, hnoerr, hopen,
      Option.isSome_some, if_true]
    simp

/-- Witness for C3 (amended): a LangChain stream consisting of one
`on_tool_start` event and no `on_tool_end` leaves tool call `tool_7` open at
stream end, and the bridge emits its complete force-closed triple before
`TEXT_MESSAGE_END`. -/
theorem c3_witness :
    lc_stream_with_agui_bridge "t" "u" [.ev (.onToolStart "search" 7 none)] =
      [.runStarted "t" "t_u",
       .textMessageStart (some "uuid-0") "assistant",
       .toolCallStart (some "tool_7") "search" (some "uuid-0"),
       .toolCallResult (some "tool_7") (some "uuid-0")
         "Tool executed successfully" "tool",
       .toolCallEnd (some "tool_7"),
       .textMessageEnd (some "uuid-0"),
       .runFinished "t" "t_u" none] :=
  ((c3_amended_lc_stream_forces_close "t" "u"
      [.ev (.onToolStart "search" 7 none)] "tool_7"
      (by decide) (by decide)).2).trans (by decide)

/-! ## Claim C4 -/

/-- C4, counterexample: in the Strands bridge
(`StrandsToAGUIBridge.convert_strands_event`), a new tool-invocation-start
arriving while a tool call is already open does NOT force-close the prior
call: it emits only the new `TOOL_CALL_START` (overwriting the open-call
state), and a full stream with two overlapping tool starts contains two
`TOOL_CALL_START` events but zero `TOOL_CALL_RESULT` events. -/
theorem c4_counterexample :
    (convert_strands_event
        { currentMessageId := some "uuid-0", currentToolCallId := some "uuid-1"
          toolArgsBuffer := "", toolName := some "a", fresh := 2 }
        (.blockStartToolUse "b")).1 =
      [.toolCallStart (some "uuid-2") "b" (some "uuid-0")] ∧
    (stream_with_agui_bridge "t" "u"
        [.ev (.blockStartToolUse "a"), .ev (.blockStartToolUse "b")]
        none).countP isToolCallStart = 2 ∧
    (stream_with_agui_bridge "t" "u"
        [.ev (.blockStartToolUse "a"), .ev (.blockStartToolUse "b")]
        none).countP isToolCallResult = 0 := by
  decide

/-- C4 (amended): the force-close-before-new-start behaviour belongs to the
LangChain bridge: whenever `LangChainToAGUIBridge.process_stream_event`
handles `on_tool_start` with a tool call `i` already open, it first emits
`TOOL_CALL_RESULT` and `TOOL_CALL_END` for `i` from the current state, then
the new `TOOL_CALL_START` (and its args event, if any), and the resulting
state holds only the new call — so that bridge keeps at most one open tool
call; the Strands bridge does not force-close (counterexample). -/
theorem c4_amended_lc_force_close_prior (s : LCState) (i nm : String)
    (eventId : Nat) (input : Option String)
    (h : s.currentToolCallId = some i) :
    (process_stream_event s (.onToolStart nm eventId input)).1 =
      .toolCallResult (some i) s.currentMessageId
          "Tool executed successfully" "tool" ::
        .toolCallEnd (some i) ::
        .toolCallStart (some ("tool_" ++ toString eventId)) nm
          s.currentMessageId ::
        (match input with
         | some args => [.toolCallArgs (some ("tool_" ++ toString eventId)) args]
         | none => []) ∧
    (process_stream_event s (.onToolStart nm eventId input)).2.currentToolCallId =
      some ("tool_" ++ toString eventId) := by
  constructor
  · simp [process_stream_event, lc_end_tool_call, h]
  · simp [process_stream_event]

/-- Witness for C4 (amended): with tool call `tool_1` open, an
`on_tool_start` for `search` first closes `tool_1` and then opens
`tool_2`. -/
theorem c4_witness :
    (process_stream_event
        { currentMessageId := some "uuid-0", currentToolCallId := some "tool_1"
          fresh := 1 }
        (.onToolStart "search" 2 (some "argdata"))).1 =
      [.toolCallResult (some "tool_1") (some "uuid-0")
         "Tool executed successfully" "tool",
       .toolCallEnd (some "tool_1"),
       .toolCallStart (some "tool_2") "search" (some "uuid-0"),
       .toolCallArgs (some "tool_2") "argdata"] :=
  ((c4_amended_lc_force_close_prior
      { currentMessageId := some "uuid-0", currentToolCallId := some "tool_1"
        fresh := 1 } "tool_1" "search" 2 (some "argdata") rfl).1).trans
    (by decide)
